import Mathlib

/-!
Shallow embedding of the cooperative task executor found in
`implementations/rust/ockam/ockam_executor/src/executor.rs`, together with
theorems settling the specification claims about it.

The executor's mutable state (task table, waker cache, ready queue, the
global `NEXT_ID` counter) is gathered into an explicit `ExecState` record
threaded through the operations.  `BTreeMap` is modelled as an association
list with map semantics (lookup finds the first matching key; insert
overwrites; remove drops the key).  The `SegQueue` FIFO is a list: `push`
appends at the tail, `pop` takes the head.  `usize` is a `Nat` reduced
modulo `2 ^ 64` where the source relies on machine arithmetic (the
wrapping `fetch_add` in `TaskId::new`).

A future is modelled by its observable behaviour at each poll: the list of
task ids its poll pushes onto the ready queue (through the wakers it holds)
and whether it returns `Poll::Ready`.  A task's internal progress is the
number of times it has been polled (`pos`).

Two history variables (`polled`, `completed`) record which ids have been
polled at least once and which tasks have signalled completion; they are
ghost state used only to state the waker-cache invariant and are not part
of the Rust program.
-/

namespace Ockam

/-! ### Association-list maps (model of `BTreeMap`) -/

/-- Lookup of the first binding of key `k`. -/
def lookupA {α : Type} : List (Nat × α) → Nat → Option α
  | [], _ => none
  | (k', v) :: rest, k => if k' = k then some v else lookupA rest k

/-- Remove the bindings of key `k` (model of `BTreeMap::remove`). -/
def eraseA {α : Type} : List (Nat × α) → Nat → List (Nat × α)
  | [], _ => []
  | (k', v) :: rest, k => if k' = k then eraseA rest k else (k', v) :: eraseA rest k

/-- Insert, overwriting any previous binding (model of `BTreeMap::insert`). -/
def insertA {α : Type} (l : List (Nat × α)) (k : Nat) (v : α) : List (Nat × α) :=
  (k, v) :: eraseA l k

/-- Insert only when the key is absent (model of `entry(k).or_insert_with`). -/
def insertIfAbsent {α : Type} (l : List (Nat × α)) (k : Nat) (v : α) : List (Nat × α) :=
  match lookupA l k with
  | some _ => l
  | none => (k, v) :: l

/-- Key-membership test. -/
def containsKey {α : Type} (l : List (Nat × α)) (k : Nat) : Bool :=
  (lookupA l k).isSome

/-- Ghost-set insertion (idempotent, used only for the history variables). -/
def insertSet (k : Nat) (l : List Nat) : List Nat :=
  if k ∈ l then l else k :: l

@[simp] theorem lookupA_nil {α : Type} (k : Nat) : lookupA ([] : List (Nat × α)) k = none := rfl

@[simp] theorem lookupA_cons {α : Type} (k' k : Nat) (v : α) (rest : List (Nat × α)) :
    lookupA ((k', v) :: rest) k = if k' = k then some v else lookupA rest k := rfl

theorem lookupA_eraseA {α : Type} (l : List (Nat × α)) (k j : Nat) :
    lookupA (eraseA l k) j = if k = j then none else lookupA l j := by
  induction l with
  | nil => simp [eraseA]
  | cons p rest ih =>
    obtain ⟨k', v⟩ := p
    simp only [eraseA]
    by_cases hk : k' = k
    · subst hk
      rw [if_pos rfl, ih]
      by_cases hj : k' = j <;> simp [hj]
    · rw [if_neg hk]
      by_cases hj : k' = j
      · subst hj
        have hkj : ¬ k = k' := fun h => hk h.symm
        simp [lookupA, hkj]
      · rw [lookupA_cons, if_neg hj, ih]
        by_cases hkj : k = j <;> simp [hkj, hj]

theorem lookupA_insertA {α : Type} (l : List (Nat × α)) (k j : Nat) (v : α) :
    lookupA (insertA l k v) j = if k = j then some v else lookupA l j := by
  by_cases h : k = j <;> simp [insertA, lookupA_eraseA, h]

theorem lookupA_insertIfAbsent {α : Type} (l : List (Nat × α)) (k j : Nat) (v : α) :
    lookupA (insertIfAbsent l k v) j =
      match lookupA l k with
      | some _ => lookupA l j
      | none => if k = j then some v else lookupA l j := by
  cases h : lookupA l k <;> simp [insertIfAbsent, h]

@[simp] theorem mem_insertSet (k j : Nat) (l : List Nat) :
    j ∈ insertSet k l ↔ j = k ∨ j ∈ l := by
  by_cases h : k ∈ l
  · simp only [insertSet, if_pos h]
    constructor
    · exact Or.inr
    · rintro (rfl | hj)
      · exact h
      · exact hj
  · simp [insertSet, if_neg h]

/-! ### Data model of the executor -/

/-- Width of `usize` on the modelled target (64-bit). -/
def USIZE : Nat := 2 ^ 64

/-- `TaskId::new`: `NEXT_ID.fetch_add(1, Ordering::Relaxed)` on an
`AtomicUsize`.  Takes the current counter, returns the issued id (the value
before the increment) and the new counter, which wraps at `usize` width. -/
def TaskId_new (c : Nat) : Nat × Nat := (c, (c + 1) % USIZE)

/-- Behaviour of a type-erased spawned future (`dyn Future<Output = ()>`):
at its `k`-th poll it pushes a list of task ids onto the ready queue (via
the wakers its body invokes) and either completes (`true` = `Poll::Ready`)
or stays pending. -/
structure TaskFut where
  step : Nat → List Nat × Bool

/-- Behaviour of a future with an output of type `A`, before the discarding
adapter is applied: at its `k`-th poll it pushes wakes and, when done,
yields `some` output. -/
structure FutOf (A : Type) where
  step : Nat → List Nat × Option A

/-- The discarding adapter `async { future.await; }` used by
`Task::allocate`: same polls, same wakes, output dropped. -/
def discardOutput {A : Type} (f : FutOf A) : TaskFut :=
  ⟨fun k => ((f.step k).1, ((f.step k).2).isSome)⟩

/-- Behaviour of the root future driven by `block_on` (output type `T`). -/
structure RootFut (T : Type) where
  step : Nat → List Nat × Option T

/-- A table-resident task (`Node<dyn Future<Output = ()>>`): identifier,
diagnostic name, the erased future, and how many times it has been polled
(the future's internal progress). -/
structure TaskNode where
  id : Nat
  name : String
  fut : TaskFut
  pos : Nat

/-- A cached `TaskWaker`: it holds the bound task id (and a handle to the
shared ready queue, which in this sequential model is the state's queue). -/
structure TaskWaker where
  task_id : Nat

/-- The executor state: task table, waker cache, ready queue, the global
`NEXT_ID` counter, and the two history variables (`polled`, `completed`). -/
structure ExecState where
  tasks : List (Nat × TaskNode)
  waker_cache : List (Nat × TaskWaker)
  task_queue : List Nat
  next_id : Nat
  polled : List Nat
  completed : List Nat

/-- The freshly initialised executor (`Executor::new`) with the counter at
its initial value `0`. -/
def emptyState : ExecState :=
  { tasks := [], waker_cache := [], task_queue := [], next_id := 0
    polled := [], completed := [] }

/-! ### `poll_task` -/

/-- `Executor::poll_task`: look the task up (absent → warn and return with
no other effect); fetch or lazily create its cached waker; poll the future
(its wakes are pushed onto the queue); on `Ready` remove the task and its
cached waker, on `Pending` leave the task in place with its progress
advanced.  The history variables record the poll and, when `Ready`, the
completion. -/
def poll_task (s : ExecState) (task_id : Nat) : ExecState :=
  match lookupA s.tasks task_id with
  | none => s
  | some task =>
    let waker_cache := insertIfAbsent s.waker_cache task_id ⟨task_id⟩
    let queue := s.task_queue ++ (task.fut.step task.pos).1
    if (task.fut.step task.pos).2 then
      { s with
        tasks := eraseA s.tasks task_id
        waker_cache := eraseA waker_cache task_id
        task_queue := queue
        polled := insertSet task_id s.polled
        completed := insertSet task_id s.completed }
    else
      { s with
        tasks := insertA s.tasks task_id { task with pos := task.pos + 1 }
        waker_cache := waker_cache
        task_queue := queue
        polled := insertSet task_id s.polled }

/-! ### `spawn` / `spawn_with_name` -/

/-- Outcome of a `spawn`: either the new state, or a panic (the fatal
duplicate-id branch) together with the state at the instant of the panic. -/
inductive SpawnResult where
  | ok (s : ExecState)
  | panicked (msg : String) (s : ExecState)

/-- The state carried by either outcome of a `spawn`. -/
def resultState : SpawnResult → ExecState
  | .ok s => s
  | .panicked _ s => s

/-- Observable side effects of a `spawn`, in program order. -/
inductive SpawnEffect where
  | allocId (id : Nat)
  | pushQueue (id : Nat)
  | insertTable (id : Nat)
deriving DecidableEq, BEq

/-- `Executor::spawn_with_name`: `Task::allocate_with_name` draws a fresh
id from `NEXT_ID` and wraps the future in the discarding adapter; the id is
pushed onto the ready queue; the task is inserted into the table; if the
insertion displaced an existing task the executor panics.  Returns the
outcome together with the effect trace in program order. -/
def spawn_with_name {A : Type} (s0 : ExecState) (name : String) (future : FutOf A) :
    SpawnResult × List SpawnEffect :=
  let idn := (TaskId_new s0.next_id).1
  let s1 : ExecState := { s0 with next_id := (TaskId_new s0.next_id).2 }
  let task : TaskNode := { id := idn, name := name, fut := discardOutput future, pos := 0 }
  let s2 : ExecState := { s1 with task_queue := s1.task_queue ++ [idn] }
  let dup := containsKey s2.tasks idn
  let s3 : ExecState := { s2 with tasks := insertA s2.tasks idn task }
  if dup then
    (.panicked "executor task with same id already exists" s3,
      [.allocId idn, .pushQueue idn, .insertTable idn])
  else
    (.ok s3, [.allocId idn, .pushQueue idn, .insertTable idn])

/-- `Executor::spawn`: same body as `spawn_with_name` with the default
diagnostic name `"Task"` (`Task::allocate`). -/
def spawn {A : Type} (s0 : ExecState) (future : FutOf A) :
    SpawnResult × List SpawnEffect :=
  spawn_with_name s0 "Task" future

/-! ### The driver loop (`block_on`) -/

/-- The inner task-executor loop of `Executor::block_on`.  Pops task ids
from the ready queue; the livelock guard pushes an id equal to the
previously processed one back to the tail and breaks; otherwise the task is
polled; after the poll the loop breaks when the budget is zero, else the
budget is decremented.  Returns the final state and the list of ids polled,
in order. -/
def innerLoop (s : ExecState) (last_task : Nat) (budget : Nat) :
    ExecState × List Nat :=
  match s.task_queue with
  | [] => (s, [])
  | task_id :: rest =>
    if task_id = last_task then
      ({ s with task_queue := rest ++ [task_id] }, [])
    else
      let s2 := poll_task { s with task_queue := rest } task_id
      match budget with
      | 0 => (s2, [task_id])
      | b + 1 =>
        let r := innerLoop s2 task_id b
        (r.1, task_id :: r.2)

/-- Result of running the driver loop for a bounded number of outer
iterations: the root's result if it completed within the bound, the final
state, every spawned-task id polled (in order), and how many times the root
was polled. -/
structure RunResult (T : Type) where
  result : Option T
  state : ExecState
  pollTrace : List Nat
  rootPolls : Nat

/-- The outer loop of `Executor::block_on`, with the root node's id fixed
and `fuel` bounding the number of outer iterations (the Rust loop runs
until the root completes).  Each iteration polls the root first (its wakes
are pushed onto the queue; its own waker is the no-op `NodeWaker`); on
`Ready` the result is returned at once; otherwise the fairness budget is
sampled as the current queue length and the inner loop runs
(`sleep_if_idle` is a no-op). -/
def blockOnLoop {T : Type} (root : RootFut T) (node_id : Nat) (pos fuel : Nat)
    (s : ExecState) : RunResult T :=
  match fuel with
  | 0 => ⟨none, s, [], 0⟩
  | f + 1 =>
    let s1 : ExecState := { s with task_queue := s.task_queue ++ (root.step pos).1 }
    match (root.step pos).2 with
    | some r => ⟨some r, s1, [], 1⟩
    | none =>
      let budget := s1.task_queue.length
      let inner := innerLoop s1 node_id budget
      let rest := blockOnLoop root node_id (pos + 1) f inner.1
      ⟨rest.result, rest.state, inner.2 ++ rest.pollTrace, 1 + rest.rootPolls⟩

/-- `Executor::block_on`: allocate the root node's `TaskId` from `NEXT_ID`,
then run the outer driver loop. -/
def block_on {T : Type} (root : RootFut T) (fuel : Nat) (s : ExecState) : RunResult T :=
  let node_id := (TaskId_new s.next_id).1
  let s1 : ExecState := { s with next_id := (TaskId_new s.next_id).2 }
  blockOnLoop root node_id 0 fuel s1

/-! ### The `NEXT_ID` allocation stream -/

/-- Value of the `NEXT_ID` counter after `k` allocations, starting from the
process-initial `0`. -/
def counterAfter : Nat → Nat
  | 0 => 0
  | k + 1 => (TaskId_new (counterAfter k)).2

/-- The id issued by the `(k+1)`-th call to `TaskId::new` in the process
(the counter value before that call's increment). -/
def issuedId (k : Nat) : Nat := (TaskId_new (counterAfter k)).1

/-! ### The waker-cache invariant -/

/-- Waker-cache invariant: a cache entry exists exactly for tasks that have
been polled at least once and have not yet completed; completed tasks are
no longer in the table. -/
def CacheInv (s : ExecState) : Prop :=
  (∀ id, containsKey s.waker_cache id = true → id ∈ s.polled ∧ id ∉ s.completed) ∧
  (∀ id ∈ s.polled, id ∉ s.completed → containsKey s.waker_cache id = true) ∧
  (∀ id ∈ s.completed, containsKey s.tasks id = false)

/-! ### Concrete scenarios -/

/-- A future that never completes and on every poll wakes exactly the ids
in `l`. -/
def wakeFut (l : List Nat) : TaskFut := ⟨fun _ => (l, false)⟩

/-- A state with two pending tasks: task `1` wakes task `2` whenever
polled, task `2` wakes nobody; only task `1` is in the ready queue. -/
def c1State : ExecState :=
  { tasks := [(1, ⟨1, "Task", wakeFut [2], 0⟩), (2, ⟨2, "Task", wakeFut [], 0⟩)]
    waker_cache := [], task_queue := [1], next_id := 3, polled := [], completed := [] }

/-- A root future that never completes and wakes nobody. -/
def rootPending : RootFut Nat := ⟨fun _ => ([], none)⟩

/-- A root future that completes immediately with `42`. -/
def rootDone : RootFut Nat := ⟨fun _ => ([], some 42)⟩

/-- A state holding one task (id `1`, polled `p` times already) that
re-wakes itself on every poll and sits alone in the ready queue. -/
def selfState (p : Nat) : ExecState :=
  { tasks := [(1, ⟨1, "Task", wakeFut [1], p⟩)]
    waker_cache := [(1, ⟨1⟩)], task_queue := [1], next_id := 2
    polled := [1], completed := [] }

/-- A future completing at its first poll, used as a spawn argument. -/
def unitFut : FutOf Unit := ⟨fun _ => ([], some ())⟩

/-- A state whose table already holds a task under the id the counter will
issue next (id-issuance corruption, unreachable through the API). -/
def dupState : ExecState :=
  { tasks := [(0, ⟨0, "Task", wakeFut [], 0⟩)]
    waker_cache := [], task_queue := [], next_id := 0, polled := [], completed := [] }

/-! ### Helper lemmas -/

/-- The inner loop polls at most `budget + 1` tasks: the budget check in
the source runs after the poll, so one poll happens with the budget
already at zero before the loop breaks. -/
theorem innerLoop_length_le (b : Nat) :
    ∀ (s : ExecState) (last : Nat), ((innerLoop s last b).2).length ≤ b + 1 := by
  induction b with
  | zero =>
    intro s last
    unfold innerLoop
    split
    · simp
    · split
      · simp
      · simp
  | succ k ih =>
    intro s last
    unfold innerLoop
    split
    · simp
    · split
      · simp
      · simp only [List.length_cons]
        exact Nat.succ_le_succ (ih _ _)

/-- `NEXT_ID` after `k` allocations is `k` reduced at `usize` width. -/
theorem counterAfter_eq (k : Nat) : counterAfter k = k % USIZE := by
  induction k with
  | zero => rfl
  | succ n ih =>
    show (TaskId_new (counterAfter n)).2 = (n + 1) % USIZE
    rw [TaskId_new, ih]
    show (n % USIZE + 1) % USIZE = (n + 1) % USIZE
    conv_rhs => rw [Nat.add_mod]
    norm_num [USIZE]

/-! ### C1 — fairness budget -/

/-- C1 (counterexample): at an outer iteration of `block_on` where the
root stays pending and the ready queue snapshot has length `B = 1`, the
driver polls two tasks, not at most one: in `c1State` task `1` wakes
task `2` during its poll, and the budget check happens only after the
second poll. -/
theorem innerLoop_budget_refuted :
    ¬ ((blockOnLoop rootPending 0 0 1 c1State).pollTrace.length ≤
        c1State.task_queue.length) := by decide

/-- C1 (amended): in every outer iteration of `block_on` in which the root
stays pending, the driver resumes at most `B + 1` tasks, where `B` is the
ready-queue length sampled right after the root's poll; the budget is this
snapshot, is decremented once per resumed task, and the loop breaks at the
first poll made with the budget already at zero. -/
theorem budget_bound_per_iteration {T : Type} (root : RootFut T) (node_id pos : Nat)
    (s : ExecState) (h : (root.step pos).2 = none) :
    (blockOnLoop root node_id pos 1 s).pollTrace.length ≤
      (s.task_queue ++ (root.step pos).1).length + 1 := by
  unfold blockOnLoop
  rw [h]
  simp only [blockOnLoop, List.append_nil]
  exact innerLoop_length_le _ _ _

/-- Witness for `budget_bound_per_iteration` at `c1State`. -/
theorem budget_bound_per_iteration_witness :
    (blockOnLoop rootPending 0 0 1 c1State).pollTrace.length ≤
      (c1State.task_queue ++ (rootPending.step 0).1).length + 1 :=
  budget_bound_per_iteration rootPending 0 0 c1State rfl

/-! ### C4 — root completing immediately -/

/-- C4: if the root signals completion at its very first poll, `block_on`
returns that result at once, polls no spawned task, and leaves the task
table exactly as it was (pending tasks are abandoned, not completed). -/
theorem block_on_immediate_result {T : Type} (root : RootFut T) (s : ExecState)
    (f : Nat) (w : List Nat) (r : T) (h : root.step 0 = (w, some r)) :
    (block_on root (f + 1) s).result = some r ∧
    (block_on root (f + 1) s).pollTrace = [] ∧
    (block_on root (f + 1) s).state.tasks = s.tasks := by
  simp [block_on, blockOnLoop, h]

/-- Witness for `block_on_immediate_result`: a root completing with `42`
over `c1State`, whose two pending tasks stay untouched. -/
theorem block_on_immediate_result_witness :
    (block_on rootDone 7 c1State).result = some 42 ∧
    (block_on rootDone 7 c1State).pollTrace = [] ∧
    (block_on rootDone 7 c1State).state.tasks = c1State.tasks :=
  block_on_immediate_result rootDone c1State 6 [] 42 rfl

/-! ### C5 — stale resumption -/

/-- C5: polling a `TaskId` absent from the task table leaves the whole
state unchanged: no panic, no error, and the task table, waker cache and
ready queue are exactly as before (the source only emits a `warn!`
diagnostic and returns). -/
theorem poll_task_absent_noop (s : ExecState) (id : Nat)
    (h : lookupA s.tasks id = none) : poll_task s id = s := by
  simp [poll_task, h]

/-- Witness for `poll_task_absent_noop`: id `5` is not in `c1State`. -/
theorem poll_task_absent_noop_witness : poll_task c1State 5 = c1State :=
  poll_task_absent_noop c1State 5 rfl

/-! ### C7 — TaskId monotonicity -/

/-- C7 (counterexample): `NEXT_ID.fetch_add` wraps at `usize` width, so
the allocation numbered `2 ^ 64` re-issues the very first id `0`: ids are
not unique over all allocation sequences and that allocation is not
strictly greater than its predecessors. -/
theorem taskid_reuse_at_wrap :
    issuedId USIZE = issuedId 0 ∧ ¬ (issuedId 0 < issuedId USIZE) := by
  have h : issuedId USIZE = 0 := by
    show (TaskId_new (counterAfter USIZE)).1 = 0
    rw [counterAfter_eq, TaskId_new]
    simp [Nat.mod_self]
  have h0 : issuedId 0 = 0 := rfl
  exact ⟨h.trans h0.symm, by simp [h, h0]⟩

/-- C7 (amended): as long as the process performs fewer than `2 ^ 64`
allocations, every `TaskId::new` (from `spawn`, `spawn_with_name` or
`block_on`'s root) issues an id strictly greater than every previously
issued one — so no id is issued twice within the first `2 ^ 64`
allocations; the counter wraps after that. -/
theorem taskid_monotonic_below_wrap (j k : Nat) (hjk : j < k) (hk : k < USIZE) :
    issuedId j < issuedId k := by
  have hj : j < USIZE := lt_trans hjk hk
  show (TaskId_new (counterAfter j)).1 < (TaskId_new (counterAfter k)).1
  rw [TaskId_new, TaskId_new, counterAfter_eq, counterAfter_eq]
  simpa [Nat.mod_eq_of_lt hj, Nat.mod_eq_of_lt hk] using hjk

/-- Witness for `taskid_monotonic_below_wrap`: the first id is below the
second. -/
theorem taskid_monotonic_below_wrap_witness : issuedId 0 < issuedId 1 :=
  taskid_monotonic_below_wrap 0 1 (by decide) (by decide)

/-! ### C9 — queue mutation on the panic path -/

/-- C9: whenever `spawn_with_name` takes the duplicate-id panic branch,
the freshly issued id has already been pushed onto the ready queue: the
abort is not atomic with respect to the queue. -/
theorem spawn_panic_queue_already_pushed {A : Type} (s : ExecState) (name : String)
    (fut : FutOf A) (msg : String) (s' : ExecState)
    (h : (spawn_with_name s name fut).1 = .panicked msg s') :
    s'.task_queue = s.task_queue ++ [(TaskId_new s.next_id).1] := by
  simp only [spawn_with_name] at h
  split at h
  · cases h
    rfl
  · cases h

/-- Witness for `spawn_panic_queue_already_pushed` at `dupState`, whose
table already holds the id the counter issues next. -/
theorem spawn_panic_queue_already_pushed_witness :
    (resultState (spawn_with_name dupState "T" unitFut).1).task_queue =
      dupState.task_queue ++ [(TaskId_new dupState.next_id).1] :=
  spawn_panic_queue_already_pushed dupState "T" unitFut
    "executor task with same id already exists"
    (resultState (spawn_with_name dupState "T" unitFut).1) rfl

/-! ### C3 — what `spawn` does, and in which order -/

/-- C3 (counterexample): on the very first `spawn` of a fresh process the
effect trace is alloc, queue-push, table-insert — the id is enqueued
before the task is inserted into the table, not after it as the claim's
"in that order" states. -/
theorem spawn_order_refuted :
    (spawn emptyState unitFut).2 =
      [.allocId 0, .pushQueue 0, .insertTable 0] ∧
    ¬ ((spawn emptyState unitFut).2.indexOf (SpawnEffect.insertTable 0) <
       (spawn emptyState unitFut).2.indexOf (SpawnEffect.pushQueue 0)) := by
  decide

/-- C3 (amended): a `spawn` (or `spawn_with_name`) whose generated id is
fresh allocates the id, wraps the computation in the discarding adapter,
enqueues the id into the ready queue and then inserts the wrapped task
into the table — push before insert — so that after it returns the task is
present in the table and its id occurs in the queue. -/
theorem spawn_enqueues_and_inserts {A : Type} (s : ExecState) (name : String)
    (fut : FutOf A) (h : containsKey s.tasks (TaskId_new s.next_id).1 = false) :
    ∃ s', (spawn_with_name s name fut).1 = .ok s' ∧
      (spawn_with_name s name fut).2 =
        [.allocId (TaskId_new s.next_id).1, .pushQueue (TaskId_new s.next_id).1,
         .insertTable (TaskId_new s.next_id).1] ∧
      lookupA s'.tasks (TaskId_new s.next_id).1 =
        some { id := (TaskId_new s.next_id).1, name := name
               fut := discardOutput fut, pos := 0 } ∧
      (TaskId_new s.next_id).1 ∈ s'.task_queue := by
  refine ⟨{ s with
              next_id := (TaskId_new s.next_id).2
              task_queue := s.task_queue ++ [(TaskId_new s.next_id).1]
              tasks := insertA s.tasks (TaskId_new s.next_id).1
                { id := (TaskId_new s.next_id).1, name := name
                  fut := discardOutput fut, pos := 0 } }, ?_, ?_, ?_, ?_⟩
  · simp only [spawn_with_name]
    split
    · rename_i hdup
      simp [h] at hdup
    · rfl
  · simp only [spawn_with_name]
    split <;> rfl
  · simp [lookupA_insertA]
  · exact List.mem_append.2 (Or.inr (List.mem_singleton.2 rfl))

/-- Witness for `spawn_enqueues_and_inserts` on the fresh process state. -/
theorem spawn_enqueues_and_inserts_witness :
    ∃ s', (spawn_with_name emptyState "Task" unitFut).1 = .ok s' ∧
      (spawn_with_name emptyState "Task" unitFut).2 =
        [.allocId (TaskId_new emptyState.next_id).1,
         .pushQueue (TaskId_new emptyState.next_id).1,
         .insertTable (TaskId_new emptyState.next_id).1] ∧
      lookupA s'.tasks (TaskId_new emptyState.next_id).1 =
        some { id := (TaskId_new emptyState.next_id).1, name := "Task"
               fut := discardOutput unitFut, pos := 0 } ∧
      (TaskId_new emptyState.next_id).1 ∈ s'.task_queue :=
  spawn_enqueues_and_inserts emptyState "Task" unitFut rfl

/-! ### C8 — duplicate id panic, unreachable under monotonicity -/

/-- C8: `spawn_with_name` panics when the freshly generated id is already
a table key, and under the precondition that every table key is strictly
below the `NEXT_ID` counter (what monotonic issuance maintains), the panic
branch is unreachable and the spawn succeeds. -/
theorem spawn_duplicate_panic_unreachable :
    (∀ (A : Type) (s : ExecState) (name : String) (fut : FutOf A),
        containsKey s.tasks (TaskId_new s.next_id).1 = true →
        ∃ s', (spawn_with_name s name fut).1 =
          .panicked "executor task with same id already exists" s') ∧
    (∀ (A : Type) (s : ExecState) (name : String) (fut : FutOf A),
        (∀ id, containsKey s.tasks id = true → id < s.next_id) →
        ∃ s', (spawn_with_name s name fut).1 = .ok s') := by
  constructor
  · intro A s name fut h
    refine ⟨{ s with
                next_id := (TaskId_new s.next_id).2
                task_queue := s.task_queue ++ [(TaskId_new s.next_id).1]
                tasks := insertA s.tasks (TaskId_new s.next_id).1
                  { id := (TaskId_new s.next_id).1, name := name
                    fut := discardOutput fut, pos := 0 } }, ?_⟩
    simp only [spawn_with_name]
    split
    · rfl
    · rename_i hdup
      simp [h] at hdup
  · intro A s name fut hbound
    have h : containsKey s.tasks (TaskId_new s.next_id).1 = false := by
      by_cases hc : containsKey s.tasks (TaskId_new s.next_id).1 = true
      · exact absurd (hbound _ hc) (lt_irrefl s.next_id)
      · simpa using hc
    refine ⟨{ s with
                next_id := (TaskId_new s.next_id).2
                task_queue := s.task_queue ++ [(TaskId_new s.next_id).1]
                tasks := insertA s.tasks (TaskId_new s.next_id).1
                  { id := (TaskId_new s.next_id).1, name := name
                    fut := discardOutput fut, pos := 0 } }, ?_⟩
    simp only [spawn_with_name]
    split
    · rename_i hdup
      simp [h] at hdup
    · rfl

/-- Witness for `spawn_duplicate_panic_unreachable`: the panic half at the
corrupted `dupState`, the no-panic half at the fresh process state. -/
theorem spawn_duplicate_panic_unreachable_witness :
    (∃ s', (spawn_with_name dupState "T" unitFut).1 =
        .panicked "executor task with same id already exists" s') ∧
    (∃ s', (spawn_with_name emptyState "Task" unitFut).1 = .ok s') :=
  ⟨spawn_duplicate_panic_unreachable.1 Unit dupState "T" unitFut rfl,
   spawn_duplicate_panic_unreachable.2 Unit emptyState "Task" unitFut
     (fun id h => absurd h (by simp [emptyState, containsKey]))⟩

/-! ### C2 — livelock guard -/

/-- One outer driver iteration over the self-waking task is a cycle: the
root is polled once, the task is polled once (re-waking itself), the guard
then pushes the re-popped id back and breaks, and the state returns to
`selfState` with the task's progress advanced. -/
theorem selfState_cycle (n pos p : Nat) :
    blockOnLoop rootPending 0 pos (n + 1) (selfState p) =
      { result := (blockOnLoop rootPending 0 (pos + 1) n (selfState (p + 1))).result
        state := (blockOnLoop rootPending 0 (pos + 1) n (selfState (p + 1))).state
        pollTrace := 1 :: (blockOnLoop rootPending 0 (pos + 1) n (selfState (p + 1))).pollTrace
        rootPolls := 1 + (blockOnLoop rootPending 0 (pos + 1) n (selfState (p + 1))).rootPolls } :=
  rfl

/-- C2: (i) whenever the id popped by the inner loop equals the id
processed immediately before it, the driver pushes it back to the queue's
tail and breaks without polling it; (ii) consequently a task that re-wakes
itself on every poll does not starve the root: over the self-waking
scenario the root is polled once per outer iteration, for every number of
iterations. -/
theorem livelock_guard_spec :
    (∀ (s : ExecState) (last b id : Nat) (rest : List Nat),
        s.task_queue = id :: rest → id = last →
        innerLoop s last b = ({ s with task_queue := rest ++ [id] }, [])) ∧
    (∀ n pos p, (blockOnLoop rootPending 0 pos n (selfState p)).rootPolls = n) := by
  constructor
  · intro s last b id rest hq hlast
    subst hlast
    obtain ⟨tk, wc, q, ni, pl, cp⟩ := s
    simp only at hq
    subst hq
    simp [innerLoop]
  · intro n
    induction n with
    | zero => intro pos p; rfl
    | succ k ih =>
      intro pos p
      rw [selfState_cycle]
      show 1 + (blockOnLoop rootPending 0 (pos + 1) k (selfState (p + 1))).rootPolls = k + 1
      rw [ih]
      omega

/-- Witness for `livelock_guard_spec`: the guard fires on `selfState 0`
when the last processed id was `1`, and three outer iterations poll the
root three times. -/
theorem livelock_guard_spec_witness :
    innerLoop (selfState 0) 1 5 = ({ selfState 0 with task_queue := [1] }, []) ∧
    (blockOnLoop rootPending 0 0 3 (selfState 0)).rootPolls = 3 :=
  ⟨livelock_guard_spec.1 (selfState 0) 1 5 1 [] rfl rfl,
   livelock_guard_spec.2 3 0 0⟩

/-! ### Characterization of `poll_task` on a present task -/

theorem lookupA_insertIfAbsent_ne {α : Type} (l : List (Nat × α)) (k j : Nat) (v : α)
    (hkj : ¬ k = j) : lookupA (insertIfAbsent l k v) j = lookupA l j := by
  rw [lookupA_insertIfAbsent]
  cases hc : lookupA l k <;> simp [hkj]

theorem containsKey_insertIfAbsent_self {α : Type} (l : List (Nat × α)) (k : Nat) (v : α) :
    containsKey (insertIfAbsent l k v) k = true := by
  rw [containsKey]
  cases hc : lookupA l k <;> simp [insertIfAbsent, hc]

/-- What `poll_task` does when the task is present, split on the poll's
completion signal. -/
theorem poll_task_present (s : ExecState) (id : Nat) (t : TaskNode)
    (hl : lookupA s.tasks id = some t) :
    poll_task s id =
      if (t.fut.step t.pos).2 then
        { s with
          tasks := eraseA s.tasks id
          waker_cache := eraseA (insertIfAbsent s.waker_cache id ⟨id⟩) id
          task_queue := s.task_queue ++ (t.fut.step t.pos).1
          polled := insertSet id s.polled
          completed := insertSet id s.completed }
      else
        { s with
          tasks := insertA s.tasks id { t with pos := t.pos + 1 }
          waker_cache := insertIfAbsent s.waker_cache id ⟨id⟩
          task_queue := s.task_queue ++ (t.fut.step t.pos).1
          polled := insertSet id s.polled } := by
  simp [poll_task, hl]

/-! ### C10 — frame property of `poll_task` -/

/-- C10: `poll_task s id` changes at most the table entry and the
waker-cache entry of `id` itself — every other id's entries are looked up
unchanged — and when the polled task reports pending, the entry for `id`
itself stays in the table (with its progress advanced). -/
theorem poll_task_frame (s : ExecState) (id : Nat) :
    (∀ j, ¬ j = id →
        lookupA (poll_task s id).tasks j = lookupA s.tasks j ∧
        lookupA (poll_task s id).waker_cache j = lookupA s.waker_cache j) ∧
    (∀ t, lookupA s.tasks id = some t → (t.fut.step t.pos).2 = false →
        lookupA (poll_task s id).tasks id = some { t with pos := t.pos + 1 }) := by
  cases hl : lookupA s.tasks id with
  | none =>
    have hs : poll_task s id = s := by simp [poll_task, hl]
    rw [hs]
    refine ⟨fun j _ => ⟨rfl, rfl⟩, fun t ht _ => ?_⟩
    exact Option.noConfusion ht
  | some task =>
    rw [poll_task_present s id task hl]
    by_cases hr : (task.fut.step task.pos).2 = true
    · rw [if_pos hr]
      refine ⟨fun j hj => ⟨?_, ?_⟩, fun t ht hf => ?_⟩
      · rw [lookupA_eraseA, if_neg (fun h => hj h.symm)]
      · rw [lookupA_eraseA, if_neg (fun h => hj h.symm),
          lookupA_insertIfAbsent_ne _ _ _ _ (fun h => hj h.symm)]
      · injection ht with h
        subst h
        rw [hr] at hf
        exact Bool.noConfusion hf
    · rw [if_neg hr]
      refine ⟨fun j hj => ⟨?_, ?_⟩, fun t ht _ => ?_⟩
      · rw [lookupA_insertA, if_neg (fun h => hj h.symm)]
      · rw [lookupA_insertIfAbsent_ne _ _ _ _ (fun h => hj h.symm)]
      · injection ht with h
        subst h
        simp [lookupA_insertA]

/-- Witness for `poll_task_frame`: polling task `1` of `c1State` leaves
task `2`'s entry unchanged and keeps task `1` in the table with its
progress advanced. -/
theorem poll_task_frame_witness :
    lookupA (poll_task c1State 1).tasks 2 = lookupA c1State.tasks 2 ∧
    lookupA (poll_task c1State 1).tasks 1 = some ⟨1, "Task", wakeFut [2], 1⟩ :=
  ⟨((poll_task_frame c1State 1).1 2 (by decide)).1,
   (poll_task_frame c1State 1).2 ⟨1, "Task", wakeFut [2], 0⟩ rfl rfl⟩

/-! ### C6 — waker-cache invariant -/

theorem cacheInv_empty : CacheInv emptyState := by
  refine ⟨fun id h => ?_, fun id h => ?_, fun id h => ?_⟩
  · simp [emptyState, containsKey] at h
  · simp [emptyState] at h
  · simp [emptyState] at h

theorem cacheInv_poll (s : ExecState) (id : Nat) (h : CacheInv s) :
    CacheInv (poll_task s id) := by
  obtain ⟨h1, h2, h3⟩ := h
  cases hl : lookupA s.tasks id with
  | none =>
    have hs : poll_task s id = s := by simp [poll_task, hl]
    rw [hs]
    exact ⟨h1, h2, h3⟩
  | some task =>
    have hidc : id ∉ s.completed := by
      intro hc
      have hk := h3 id hc
      rw [containsKey, hl] at hk
      exact Bool.noConfusion hk
    rw [poll_task_present s id task hl]
    by_cases hr : (task.fut.step task.pos).2 = true
    · rw [if_pos hr]
      refine ⟨fun j hj => ?_, fun j hjp hjc => ?_, fun j hjc => ?_⟩
      · rw [containsKey, lookupA_eraseA] at hj
        by_cases hij : id = j
        · rw [if_pos hij] at hj
          exact Bool.noConfusion hj
        · rw [if_neg hij, lookupA_insertIfAbsent_ne _ _ _ _ hij] at hj
          obtain ⟨hp, hc⟩ := h1 j hj
          refine ⟨by simp [hp], ?_⟩
          rw [mem_insertSet]
          push_neg
          exact ⟨fun hh => hij hh.symm, hc⟩
      · have hij : ¬ id = j := by
          intro hh
          subst hh
          exact hjc (by simp)
        have hjp' : j ∈ s.polled := by
          rcases (mem_insertSet id j s.polled).1 hjp with hh | hh
          · exact absurd hh.symm hij
          · exact hh
        have hjc' : j ∉ s.completed := fun hc => hjc (by simp [hc])
        have hk := h2 j hjp' hjc'
        rw [containsKey, lookupA_eraseA, if_neg hij, lookupA_insertIfAbsent_ne _ _ _ _ hij]
        exact hk
      · rw [containsKey, lookupA_eraseA]
        by_cases hij : id = j
        · rw [if_pos hij]
          rfl
        · rw [if_neg hij]
          rcases (mem_insertSet id j s.completed).1 hjc with hh | hh
          · exact absurd hh.symm hij
          · exact h3 j hh
    · rw [if_neg hr]
      refine ⟨fun j hj => ?_, fun j hjp hjc => ?_, fun j hjc => ?_⟩
      · by_cases hij : id = j
        · subst hij
          exact ⟨by simp, hidc⟩
        · rw [containsKey, lookupA_insertIfAbsent_ne _ _ _ _ hij] at hj
          obtain ⟨hp, hc⟩ := h1 j hj
          exact ⟨by simp [hp], hc⟩
      · by_cases hij : id = j
        · subst hij
          exact containsKey_insertIfAbsent_self _ _ _
        · have hjp' : j ∈ s.polled := by
            rcases (mem_insertSet id j s.polled).1 hjp with hh | hh
            · exact absurd hh.symm hij
            · exact hh
          have hk := h2 j hjp' hjc
          rw [containsKey, lookupA_insertIfAbsent_ne _ _ _ _ hij]
          exact hk
      · rw [containsKey, lookupA_insertA]
        by_cases hij : id = j
        · subst hij
          exact absurd hjc hidc
        · rw [if_neg hij]
          exact h3 j hjc

theorem cacheInv_spawn {A : Type} (s : ExecState) (name : String) (fut : FutOf A)
    (hfresh : s.next_id ∉ s.completed) (h : CacheInv s) (s' : ExecState)
    (tr : List SpawnEffect) (hok : spawn_with_name s name fut = (.ok s', tr)) :
    CacheInv s' := by
  obtain ⟨h1, h2, h3⟩ := h
  simp only [spawn_with_name] at hok
  split at hok
  · rw [Prod.mk.injEq] at hok
    exact SpawnResult.noConfusion hok.1
  · rw [Prod.mk.injEq] at hok
    obtain ⟨hs', -⟩ := hok
    injection hs' with hs'
    subst hs'
    refine ⟨h1, h2, fun j hjc => ?_⟩
    rw [containsKey, lookupA_insertA]
    by_cases hij : (TaskId_new s.next_id).1 = j
    · exfalso
      rw [← hij] at hjc
      exact hfresh hjc
    · rw [if_neg hij]
      exact h3 j hjc

theorem cacheInv_innerLoop (b : Nat) :
    ∀ (s : ExecState) (last : Nat), CacheInv s → CacheInv (innerLoop s last b).1 := by
  induction b with
  | zero =>
    intro s last h
    unfold innerLoop
    split
    · exact h
    · split
      · exact h
      · exact cacheInv_poll _ _ h
  | succ k ih =>
    intro s last h
    unfold innerLoop
    split
    · exact h
    · split
      · exact h
      · exact ih _ _ (cacheInv_poll _ _ h)

/-- C6: at every point between operations, a waker-cache entry exists for
an id exactly when the task has been polled at least once and has not yet
completed (and completed tasks are gone from the table): the invariant
holds of the fresh executor, is preserved by `poll_task` (which creates
the entry lazily on first poll and removes task and entry together on
completion), by every successful `spawn_with_name` whose fresh id has
never completed, and by the driver's inner loop. -/
theorem waker_cache_invariant :
    CacheInv emptyState ∧
    (∀ (s : ExecState) (id : Nat), CacheInv s → CacheInv (poll_task s id)) ∧
    (∀ (A : Type) (s : ExecState) (name : String) (fut : FutOf A)
        (s' : ExecState) (tr : List SpawnEffect),
        s.next_id ∉ s.completed → CacheInv s →
        spawn_with_name s name fut = (.ok s', tr) → CacheInv s') ∧
    (∀ (s : ExecState) (last b : Nat), CacheInv s → CacheInv (innerLoop s last b).1) :=
  ⟨cacheInv_empty, cacheInv_poll,
   fun _ s name fut s' tr hf h hok => cacheInv_spawn s name fut hf h s' tr hok,
   fun s last b h => cacheInv_innerLoop b s last h⟩

/-- Witness for `waker_cache_invariant`: the invariant after polling the
(absent) id `0` of the fresh executor. -/
theorem waker_cache_invariant_witness : CacheInv (poll_task emptyState 0) :=
  waker_cache_invariant.2.1 emptyState 0 waker_cache_invariant.1

end Ockam
